import Mathlib

/-!
Shallow embedding of the AI-Stock-Analysis pipeline.

The repository is a Telegram bot that, given a ticker symbol, fetches a
chart image, runs OCR on it, asks a language model for a technical
analysis of historical price data, and posts sentiment-tagged news.

External services (HTTP, OCR, the language model, the sentiment
analyzer) are modelled as oracle parameters; the control flow, string
formatting and message sequencing of the Python source are translated
directly.  All string manipulation is done on `List Char` with
structural recursion so that every definition evaluates inside the
kernel.

Source files embedded: `app.py`, `services/ai_analysis.py`,
`services/cloud_vision.py`, `services/stock_chart.py`.
-/

namespace StockAnalysis

/-! ## Generic character-list helpers (used to model Python string ops) -/

/-- Decimal digits of a natural number, least significant first. -/
def natDigitsRev (n : Nat) : List Nat :=
  if h : n < 10 then [n]
  else (n % 10) :: natDigitsRev (n / 10)
decreasing_by exact Nat.div_lt_self (by omega) (by norm_num)

/-- Value of a least-significant-first digit list. -/
def digitsVal : List Nat → Nat
  | [] => 0
  | d :: ds => d + 10 * digitsVal ds

/-- Digit to character, for digits below ten. -/
def digitChar (d : Nat) : Char := Char.ofNat (48 + d)

/-- Character back to digit value. -/
def charVal (c : Char) : Nat := c.toNat - 48

/-- Value of a most-significant-first character list of decimal digits. -/
def valMSB (cs : List Char) : Nat := cs.foldl (fun a c => 10 * a + charVal c) 0

/-- Group a least-significant-first digit list into blocks of three,
    least significant block first (thousands grouping). -/
def groupThrees : List Nat → List (List Nat)
  | a :: b :: c :: d :: rest => [a, b, c] :: groupThrees (d :: rest)
  | l => [l]

/-- Join character lists with a separator. -/
def joinSep (sep : List Char) : List (List Char) → List Char
  | [] => []
  | [x] => x
  | x :: y :: rest => x ++ sep ++ joinSep sep (y :: rest)

/-- Characters of a natural number with thousands separators, as in
    the Python format spec with a comma. -/
def commaGroupNat (n : Nat) : List Char :=
  joinSep [','] (((groupThrees (natDigitsRev n)).reverse).map
    (fun g => g.reverse.map digitChar))

/-- Characters of an integer with thousands separators. -/
def formatIntComma (v : Int) : List Char :=
  (if v < 0 then ['-'] else []) ++ commaGroupNat v.natAbs

/-- Plain decimal characters of a natural number (no grouping). -/
def natChars (n : Nat) : List Char := (natDigitsRev n).reverse.map digitChar

/-- Two-digit zero-padded characters of a natural number below 100. -/
def twoDigitChars (m : Nat) : List Char := [digitChar (m / 10), digitChar (m % 10)]

/-- Characters of a rational formatted with two decimal places, as the
    Python format spec `.2f` does (Python rounds floats to nearest;
    rounding is exact whenever the value is a multiple of 1/100, which
    is the only case the round-trip property speaks about). -/
def format2fChars (q : ℚ) : List Char :=
  let c : Int := round (q * 100)
  (if c < 0 then ['-'] else []) ++ natChars (c.natAbs / 100) ++
    ['.'] ++ twoDigitChars (c.natAbs % 100)

/-- Rational formatted with two decimal places, as a string. -/
def format2f (q : ℚ) : String := String.mk (format2fChars q)

/-- Drop leading characters satisfying a predicate. -/
def trimLeftBy (p : Char → Bool) (l : List Char) : List Char := l.dropWhile p

/-- Drop trailing characters satisfying a predicate. -/
def trimRightBy (p : Char → Bool) (l : List Char) : List Char :=
  (l.reverse.dropWhile p).reverse

/-- Drop characters satisfying a predicate at both ends. -/
def trimBy (p : Char → Bool) (l : List Char) : List Char :=
  trimLeftBy p (trimRightBy p l)

/-- Trim ASCII spaces at both ends (used by the table parser). -/
def trimChars (l : List Char) : List Char := trimBy (fun c => c = ' ') l

/-- Python `str.strip()`: trim whitespace at both ends. -/
def pyStrip (s : String) : String :=
  String.mk (trimBy (fun c => c.isWhitespace) s.toList)

/-- Python `str.upper()` on the symbols the bot sees (ASCII). -/
def pyUpper (s : String) : String := String.mk (s.toList.map Char.toUpper)

/-- Python `str.capitalize()`: first character upper-cased, the rest
    lower-cased. -/
def pyCapitalize (s : String) : String :=
  match s.toList with
  | [] => ""
  | c :: rest => String.mk (c.toUpper :: rest.map Char.toLower)

/-- Split a character list on every occurrence of one character;
    like Python `str.split` with a one-character separator. -/
def splitOnChar (c : Char) : List Char → List (List Char)
  | [] => [[]]
  | x :: xs =>
    match splitOnChar c xs with
    | [] => if x = c then [[], []] else [[x]]
    | r :: rs => if x = c then [] :: r :: rs else (x :: r) :: rs

/-- Join strings with a newline, like Python `"\n".join`. -/
def joinWithNl : List String → String
  | [] => ""
  | [x] => x
  | x :: y :: rest => x ++ "\n" ++ joinWithNl (y :: rest)

/-- A single apostrophe, used inside several bot messages. -/
def apos : String := String.mk [Char.ofNat 39]

/-! ## Data model -/

/-- One historical data point `(date, close price, volume)` as parsed
    from the market-data service in `async_fetch_historical_data`
    (`services/ai_analysis.py`). -/
structure HistPoint where
  date : String
  close : ℚ
  volume : Int
  deriving DecidableEq

instance : Inhabited HistPoint := ⟨⟨"", 0, 0⟩⟩

/-! ## Market Data Client: historical digest (`services/ai_analysis.py`) -/

/-- Stable insertion of a point into a list sorted descending by date;
    equal dates keep the existing elements after the inserted one only
    when they compare strictly greater, so the overall sort is stable,
    matching Python `sorted(data, key=lambda x: x[0], reverse=True)`. -/
def insertDesc (x : HistPoint) : List HistPoint → List HistPoint
  | [] => [x]
  | y :: ys => if x.date < y.date then y :: insertDesc x ys else x :: y :: ys

/-- Stable sort, descending by date: the model of
    `sorted(data, key=lambda x: x[0], reverse=True)` in
    `format_historical_data`. -/
def sortByDateDesc (l : List HistPoint) : List HistPoint :=
  l.foldr insertDesc []

/-- One table row `f"{date} | ${price:.2f} | {volume:,}"` (without the
    trailing newline, which the table assembly appends). -/
def formatRowChars (p : HistPoint) : List Char :=
  p.date.toList ++ [' ', '|', ' ', '$'] ++ format2fChars p.close ++
    [' ', '|', ' '] ++ formatIntComma p.volume

/-- The price-change percentage statistic of `format_historical_data`:
    `(price_change / sorted_data[-1][1]) * 100 if sorted_data[-1][1] != 0 else 0`. -/
def price_change_pct (sorted_data : List HistPoint) : ℚ :=
  let oldest := sorted_data.getLastD default
  let newest := sorted_data.headD default
  if oldest.close ≠ 0 then (newest.close - oldest.close) / oldest.close * 100 else 0

/-- The summary-statistics block of `format_historical_data`, computed
    over the full sorted series. -/
def summaryText (sorted_data : List HistPoint) : String :=
  let oldest := sorted_data.getLastD default
  let newest := sorted_data.headD default
  let price_change : ℚ := newest.close - oldest.close
  let volumes : List Int := sorted_data.map (fun p => p.volume)
  let avg_volume : ℚ :=
    if sorted_data ≠ [] then (volumes.sum : ℚ) / (sorted_data.length : ℚ) else 0
  let max_volume : Int := if sorted_data ≠ [] then (volumes.max?).getD 0 else 0
  let min_volume : Int := if sorted_data ≠ [] then (volumes.min?).getD 0 else 0
  "\nSummary Statistics:\n" ++
  "- Date Range: " ++ oldest.date ++ " to " ++ newest.date ++ "\n" ++
  "- Price Change: $" ++ format2f price_change ++ " (" ++
    format2f (price_change_pct sorted_data) ++ "%)\n" ++
  "- Average Volume: " ++ String.mk (formatIntComma (round avg_volume)) ++ "\n" ++
  "- Volume Range: " ++ String.mk (formatIntComma min_volume) ++ " to " ++
    String.mk (formatIntComma max_volume) ++ "\n"

/-- The digest body computed from the already-sorted series: header,
    the first 30 rows, and the summary statistics. -/
def digestOfSorted (sorted_data : List HistPoint) : String :=
  "Date | Close Price | Volume\n" ++ "-----|------------|--------\n" ++
  String.join ((sorted_data.take 30).map
    (fun p => String.mk (formatRowChars p) ++ "\n")) ++
  summaryText sorted_data

/-- `format_historical_data` from `services/ai_analysis.py`: empty input
    degrades to a fixed sentence; otherwise sort descending by date and
    emit the 30-row table plus summary statistics. -/
def format_historical_data (data : List HistPoint) : String :=
  if data = [] then "No historical data available."
  else digestOfSorted (sortByDateDesc data)

/-! ## Table re-parsing (the inverse direction of the round-trip claim) -/

/-- Parse a comma-grouped unsigned decimal. -/
def parseNatComma (cs : List Char) : Option Nat :=
  let ds := cs.filter (fun c => c ≠ ',')
  if ds.isEmpty then none
  else if ds.all Char.isDigit then some (valMSB ds) else none

/-- Parse a comma-grouped decimal integer with optional leading minus. -/
def parseIntComma (cs : List Char) : Option Int :=
  if cs.head? = some '-' then (parseNatComma cs.tail).map (fun n => -(n : Int))
  else (parseNatComma cs).map (fun n => (n : Int))

/-- Parse an unsigned fixed-point number with exactly two decimals. -/
def parseNonnegPrice (cs : List Char) : Option ℚ :=
  match splitOnChar '.' cs with
  | [ip, fp] =>
    if ip.isEmpty then none
    else if ip.all Char.isDigit then
      match fp with
      | [d1, d2] =>
        if d1.isDigit && d2.isDigit then
          some ((valMSB ip : ℚ) + (valMSB [d1, d2] : ℚ) / 100)
        else none
      | _ => none
    else none
  | _ => none

/-- Parse a fixed-point number with two decimals and optional sign. -/
def parsePrice (cs : List Char) : Option ℚ :=
  if cs.head? = some '-' then (parseNonnegPrice cs.tail).map (fun q => -q)
  else parseNonnegPrice cs

/-- Parse one table row back into a data point: split on the pipe,
    trim spaces, strip the dollar sign, read price and volume. -/
def parseRowChars (cs : List Char) : Option HistPoint :=
  match splitOnChar '|' cs with
  | [a, b, c] =>
    match trimChars b with
    | '$' :: pcs =>
      match parsePrice pcs, parseIntComma (trimChars c) with
      | some pr, some vol => some ⟨String.mk (trimChars a), pr, vol⟩
      | _, _ => none
    | _ => none
  | _ => none

/-! ## Sentiment Classifier (`classify_sentiment` in `app.py`) -/

/-- `classify_sentiment` from `app.py`.  The VADER compound polarity
    score is an oracle parameter `score`; the function itself is the
    pure thresholding of the source. -/
def classify_sentiment (score : String → ℚ) (text : String) : String :=
  if text = "" ∨ text = "No summary available" then "neutral"
  else if 5 / 100 ≤ score text then "positive"
  else if score text ≤ -(5 / 100) then "negative"
  else "neutral"

/-! ## Chart Renderer Client (`fetch_stock_chart`) -/

/-- The one Python exception the chart client can surface: the
    `requests` JSON decode error raised by `.json()` on a body that is
    not JSON. -/
inductive PyErr where
  | jsonDecode
  deriving DecidableEq

/-- An HTTP response from the chart service: a status code and a body
    that is either a JSON object (a key-value list, values possibly
    null) or malformed (`none`), in which case `.json()` raises. -/
structure HttpResponse where
  status_code : Nat
  body : Option (List (String × Option String))

/-- JSON object lookup, as Python `dict.get`: `none` when the key is
    absent or its value is null. -/
def lookupKey (k : String) (kvs : List (String × Option String)) : Option String :=
  match kvs.find? (fun kv => kv.1 = k) with
  | some kv => kv.2
  | none => none

/-- `fetch_stock_chart` from `app.py` (the version the orchestrator
    calls): on status 200 return `.json().get("url")`, otherwise
    `None`.  `.json()` on a malformed body raises, and nothing in the
    function catches it, so the error propagates to the caller. -/
def fetch_stock_chart (resp : HttpResponse) : Except PyErr (Option String) :=
  if resp.status_code = 200 then
    match resp.body with
    | none => .error .jsonDecode
    | some kvs => .ok (lookupKey "url" kvs)
  else .ok none

/-- `fetch_stock_chart` from `services/stock_chart.py` (unused by the
    orchestrator): on status 200 return `.json().get("chart_url")`,
    otherwise the sentinel string `"Error fetching chart."`. -/
def fetch_stock_chart_service (resp : HttpResponse) : Except PyErr (Option String) :=
  if resp.status_code = 200 then
    match resp.body with
    | none => .error .jsonDecode
    | some kvs => .ok (lookupKey "chart_url" kvs)
  else .ok (some "Error fetching chart.")

/-! ## Text Extraction Client (`services/cloud_vision.py`) -/

/-- An OCR service response: status code, and a body that is either
    malformed (`none`, `.json()` raises and the catch-all returns an
    error string) or the pair of `OCRExitCode` (absent allowed) and the
    `ParsedText` of each entry of `ParsedResults`. -/
structure OcrResponse where
  status_code : Nat
  body : Option (Option Int × List String)

/-- Render an optional integer the way a Python f-string renders
    `dict.get` output: the number, or `None`. -/
def showOptInt : Option Int → String
  | some i => toString i
  | none => "None"

/-- The bullet entries built from the parsed pages: each page is
    stripped, split on newlines, and every non-blank line becomes a
    `- `-prefixed entry. -/
def ocrBullets (pages : List String) : List String :=
  (pages.map (fun page =>
    let extracted := pyStrip page
    if extracted = "" then []
    else ((splitOnChar '\n' extracted.toList).map String.mk).filterMap
      (fun line => if pyStrip line = "" then none else some ("- " ++ pyStrip line)))).flatten

/-- The `texts` list of `analyze_stock_chart_with_ocr`: two fixed
    headers followed by the bullet entries. -/
def ocrTexts (pages : List String) : List String :=
  "Stock Chart Analysis Results:" :: "\nText detected in chart:" :: ocrBullets pages

/-- The fixed analysis-prompt template of `analyze_stock_chart_with_ocr`
    wrapped around the combined detected text (indentation as in the
    Python triple-quoted f-string). -/
def ocrTemplate (combined_text : String) : String :=
  "\n        Based on the following elements detected in the stock chart:\n\n        " ++
  combined_text ++
  "\n\n        Please analyze:\n" ++
  "        1. Current price trend and momentum\n" ++
  "        2. Key support and resistance levels\n" ++
  "        3. Notable patterns or formations\n" ++
  "        4. Trading volume analysis if visible\n" ++
  "        5. Overall market sentiment based on indicators\n" ++
  "        6. Potential trading opportunities and risks\n        "

/-- The message text of the `requests` JSON decode exception as the
    catch-all of the OCR client stringifies it. -/
def jsonErrText : String := "Expecting value: line 1 column 1 (char 0)"

/-- `analyze_stock_chart_with_ocr` from `services/cloud_vision.py`:
    non-200 and bad exit codes return explanatory error strings, a
    malformed body is caught and stringified, and on success the
    detected lines are laid out as bullets under the fixed template. -/
def analyze_stock_chart_with_ocr (resp : OcrResponse) : String :=
  if resp.status_code ≠ 200 then
    "Error: OCR API request failed with status code " ++ toString resp.status_code
  else
    match resp.body with
    | none => "Error analyzing image: " ++ jsonErrText
    | some (exitCode, pages) =>
      if exitCode ≠ some 1 then
        "Error: OCR processing failed with exit code " ++ showOptInt exitCode
      else
        ocrTemplate (joinWithNl (ocrTexts pages))

/-! ## Analysis Engine (`async_chain_func` in `services/ai_analysis.py`) -/

/-- The external calls the analysis chain can make. -/
inductive ChainEv where
  | fetchHistorical
  | callLLM
  deriving DecidableEq

/-- The `inputs` dict of `async_chain_func`; absent keys are `none`. -/
structure ChainInputs where
  stock_symbol : Option String
  additional_context : Option String
  historical_data : Option (List HistPoint)

/-- The fixed prompt template of `create_async_stock_analysis_chain`,
    instantiated with symbol, formatted historical data and context. -/
def analysisTemplate (sym hist ctx : String) : String :=
  "\n    You are an expert financial analyst specialized in technical analysis of stock charts.\n    \n    " ++
  "Analyze the following historical stock data for " ++ sym ++
  ". The data includes date, closing price, and trading volume.\n    \n    " ++
  "Historical Data:\n    " ++ hist ++ "\n    \n    " ++
  "Perform a comprehensive analysis including:\n    \n    " ++
  "1. Correlation Analysis:\n       - Calculate the correlation coefficient between stock price and trading volume\n" ++
  "       - Explain what this correlation means (value between -1 and 1, where -1 is strong negative correlation, 1 is strong positive correlation, and 0 is no correlation)\n" ++
  "       - Identify any periods where correlation patterns changed\n    \n    " ++
  "2. Price Trend Analysis:\n       - Identify key support and resistance levels\n" ++
  "       - Note any significant price patterns (e.g., head and shoulders, double tops/bottoms)\n" ++
  "       - Calculate and interpret moving averages (if applicable)\n    \n    " ++
  "3. Volume Analysis:\n       - Identify unusual volume spikes and their relationship to price movements\n" ++
  "       - Assess volume trends compared to price movements\n    \n    " ++
  "4. Market Insights:\n       - Provide contextual interpretation of the data patterns\n" ++
  "       - Identify potential anomalies or outliers in the data\n    \n    " ++
  "5. Trading Strategy Recommendations:\n       - Suggest potential entry and exit points based on the analysis\n" ++
  "       - Recommend appropriate risk management strategies\n    \n    " ++
  "Additional Context:\n    " ++ ctx ++ "\n    \n    " ++
  "Your analysis should be data-driven, objective, and based on the technical aspects.\n    " ++
  "Note: Response should be strictly within 4000 characters and also respone should be in MARKDOWN format so that text can be sent in formatted way. \n    "

/-- The tail of `async_chain_func` once a historical series is in hand:
    format the data, build the prompt, call the model, and substitute
    the fallback sentence for an empty result. -/
def runAnalysisLLM (llm : String → String) (sym : String)
    (hist : List HistPoint) (ctx : String) : String :=
  let formatted :=
    if hist = [] then "No historical data provided." else format_historical_data hist
  let result := llm (analysisTemplate sym formatted ctx)
  if result = "" then "No analysis could be generated for " ++ sym ++ "." else result

/-- `async_chain_func` from `services/ai_analysis.py`.  The historical
    fetch result and the language model are oracle parameters; the
    returned event list records which external calls were made. -/
def async_chain_func (fetchResult : List HistPoint) (llm : String → String)
    (inputs : ChainInputs) : String × List ChainEv :=
  let stock_symbol := inputs.stock_symbol.getD ""
  let additional_context := inputs.additional_context.getD ""
  if stock_symbol = "" then ("Error: No stock symbol provided.", [])
  else
    let provided := inputs.historical_data.getD []
    if provided = [] then
      if fetchResult = [] then
        ("Error: Unable to fetch historical data for " ++ stock_symbol ++
          ". Please check if the symbol is correct and try again.",
         [ChainEv.fetchHistorical])
      else
        (runAnalysisLLM llm stock_symbol fetchResult additional_context,
         [ChainEv.fetchHistorical, ChainEv.callLLM])
    else
      (runAnalysisLLM llm stock_symbol provided additional_context,
       [ChainEv.callLLM])

/-! ## Pipeline Orchestrator (`handle_message` in `app.py`) -/

/-- Observable events of one request: outbound messages and pipeline
    stage invocations. -/
inductive Ev where
  | sendText (msg : String)
  | sendPhoto (url : String)
  | callChart
  | callOCR
  | callAnalysis
  | callNews
  deriving DecidableEq

/-- Outcome of the awaited analysis call: a result string, the
    `asyncio.TimeoutError` branch, or any other raised exception. -/
inductive AnalysisOutcome where
  | ok (result : String)
  | timeout
  | raised
  deriving DecidableEq

/-- One news item as built in `fetch_news_source`. -/
structure NewsItem where
  title : String
  url : String
  summary : String
  deriving DecidableEq

/-- The environment of one request: results of the four external
    stages.  `chart = .error _` models `fetch_stock_chart` raising
    (caught by the outer handler); `news = .error _` models
    `fetch_news_source` raising (caught by the news-stage handler). -/
structure Env where
  chart : Except Unit (Option String)
  ocr : String
  analysis : AnalysisOutcome
  news : Except Unit (List NewsItem)

/-- The symbol derived from the inbound text:
    `text.strip().upper()`. -/
def symOf (t : String) : String := pyUpper (pyStrip t)

/-- One rendered news message:
    glyph, bold title, link, and capitalized sentiment label. -/
def renderNewsItem (score : String → ℚ) (n : NewsItem) : String :=
  let sentiment := classify_sentiment score n.summary
  let emoji :=
    if sentiment = "positive" then "✅"
    else if sentiment = "negative" then "❌" else "⚠️"
  emoji ++ " *" ++ n.title ++ "*\n🔗 [Read More](" ++ n.url ++ ")\nSentiment: " ++
    pyCapitalize sentiment

/-- The news stage of `handle_message`: acknowledgment, the news fetch,
    then one message per item or a fallback sentence (the fetch
    raising is caught and answered with an apology). -/
def newsEvents (score : String → ℚ) (sym : String)
    (news : Except Unit (List NewsItem)) : List Ev :=
  Ev.sendText ("Fetching news articles related to " ++ sym ++ "...") ::
  Ev.callNews ::
  match news with
  | .error _ => [Ev.sendText "Failed to fetch news. Try again later."]
  | .ok items =>
    if items = [] then [Ev.sendText ("No recent news found for " ++ sym ++ ".")]
    else items.map (fun n => Ev.sendText (renderNewsItem score n))

/-- The chart-success branch of `handle_message`: OCR, the awaited
    analysis with its three outcomes, then the news stage. -/
def chartReadyEvents (score : String → ℚ) (env : Env) (sym url : String) : List Ev :=
  (Ev.callOCR ::
   Ev.callAnalysis ::
   match env.analysis with
   | .ok r =>
     let r2 :=
       if r = "" then
         "Unable to analyze " ++ sym ++ " at this time. Please try again later."
       else r
     [Ev.sendPhoto url, Ev.sendText r2]
   | .timeout =>
     [Ev.sendText ("Analysis for " ++ sym ++ " is taking too long. Here" ++ apos ++
        "s the chart:"),
      Ev.sendPhoto url]
   | .raised =>
     [Ev.sendText ("Error analyzing chart for " ++ sym ++ ". Here" ++ apos ++
        "s the chart anyway:"),
      Ev.sendPhoto url]) ++
  newsEvents score sym env.news

/-- `handle_message` from `app.py`, as the event trace of one request,
    for an inbound message whose `text` field is `text` (absent keys
    are `none`).  Outbound sends are assumed to succeed; external stage
    results come from `env`. -/
def handle_message (score : String → ℚ) (env : Env) (text : Option String) : List Ev :=
  match text with
  | none => [Ev.sendText "Please send a valid stock symbol."]
  | some t =>
    if t = "" then [Ev.sendText "Please send a valid stock symbol."]
    else
      let sym := symOf t
      Ev.sendText ("Fetching chart for " ++ sym ++ "...") ::
      Ev.callChart ::
      match env.chart with
      | .error _ =>
        [Ev.sendText "An error occurred while processing your request. Please try again."]
      | .ok none =>
        [Ev.sendText ("Failed to fetch the chart for " ++ sym ++
          ". Please verify the symbol and try again.")]
      | .ok (some url) => chartReadyEvents score env sym url

/-- The outbound messages of a trace (sends only, stage markers
    dropped). -/
def outboundOf (evs : List Ev) : List Ev :=
  evs.filter (fun e =>
    match e with
    | .sendText _ => true
    | .sendPhoto _ => true
    | _ => false)

/-! ## Helper lemmas: decimal digits and comma grouping -/

theorem digitsVal_natDigitsRev (n : Nat) : digitsVal (natDigitsRev n) = n := by
  induction n using Nat.strong_induction_on with
  | _ n ih =>
    rw [natDigitsRev]
    split
    · simp [digitsVal]
    · rename_i h
      rw [digitsVal, ih (n / 10) (Nat.div_lt_self (by omega) (by norm_num))]
      omega

theorem natDigitsRev_lt (n : Nat) : ∀ d ∈ natDigitsRev n, d < 10 := by
  induction n using Nat.strong_induction_on with
  | _ n ih =>
    rw [natDigitsRev]
    split
    · rename_i h; intro d hd; simp at hd; omega
    · rename_i h
      intro d hd
      rcases List.mem_cons.mp hd with h1 | h2
      · omega
      · exact ih (n / 10) (Nat.div_lt_self (by omega) (by norm_num)) d h2

theorem natDigitsRev_ne_nil (n : Nat) : natDigitsRev n ≠ [] := by
  rw [natDigitsRev]; split <;> simp

theorem charVal_digitChar {d : Nat} (h : d < 10) : charVal (digitChar d) = d := by
  interval_cases d <;> decide

theorem digitChar_isDigit {d : Nat} (h : d < 10) : (digitChar d).isDigit = true := by
  interval_cases d <;> decide

theorem isDigit_ne_comma {c : Char} (h : c.isDigit = true) : c ≠ ',' := by
  intro e; subst e; simp at h

theorem isDigit_ne_minus {c : Char} (h : c.isDigit = true) : c ≠ '-' := by
  intro e; subst e; simp at h

theorem isDigit_ne_space {c : Char} (h : c.isDigit = true) : c ≠ ' ' := by
  intro e; subst e; simp at h

theorem isDigit_ne_dot {c : Char} (h : c.isDigit = true) : c ≠ '.' := by
  intro e; subst e; simp at h

theorem isDigit_ne_pipe {c : Char} (h : c.isDigit = true) : c ≠ '|' := by
  intro e; subst e; simp at h

theorem flatten_groupThrees : ∀ l : List Nat, (groupThrees l).flatten = l
  | [] => by simp [groupThrees]
  | [a] => by simp [groupThrees]
  | [a, b] => by simp [groupThrees]
  | [a, b, c] => by simp [groupThrees]
  | a :: b :: c :: d :: rest => by
    rw [groupThrees]
    simp [flatten_groupThrees (d :: rest)]

theorem mem_of_mem_groupThrees {l : List Nat} {g : List Nat} {x : Nat}
    (hg : g ∈ groupThrees l) (hx : x ∈ g) : x ∈ l := by
  rw [← flatten_groupThrees l]
  exact List.mem_flatten.mpr ⟨g, hg, hx⟩

theorem groupThrees_mem_ne_nil : ∀ l : List Nat, l ≠ [] → ∀ g ∈ groupThrees l, g ≠ []
  | [], h => absurd rfl h
  | [a], _ => by simp [groupThrees]
  | [a, b], _ => by simp [groupThrees]
  | [a, b, c], _ => by simp [groupThrees]
  | a :: b :: c :: d :: rest, _ => by
    rw [groupThrees]
    intro g hg
    rcases List.mem_cons.mp hg with h1 | h2
    · subst h1; simp
    · exact groupThrees_mem_ne_nil (d :: rest) (by simp) g h2

theorem filter_joinSep_comma (p : Char → Bool) (hp : p ',' = false) :
    ∀ gs : List (List Char),
      (joinSep [','] gs).filter p = (gs.map (List.filter p)).flatten
  | [] => by simp [joinSep]
  | [x] => by simp [joinSep]
  | x :: y :: rest => by
    rw [joinSep]
    simp [List.filter_append, hp, filter_joinSep_comma p hp (y :: rest)]

theorem mem_joinSep_comma :
    ∀ gs : List (List Char), ∀ c ∈ joinSep [','] gs, c = ',' ∨ ∃ g ∈ gs, c ∈ g
  | [] => by simp [joinSep]
  | [x] => by
    intro c hc
    right
    exact ⟨x, by simp, by simpa [joinSep] using hc⟩
  | x :: y :: rest => by
    intro c hc
    rw [joinSep] at hc
    rcases List.mem_append.mp hc with h1 | h2
    · rcases List.mem_append.mp h1 with h3 | h4
      · exact Or.inr ⟨x, by simp, h3⟩
      · simp at h4; exact Or.inl h4
    · rcases mem_joinSep_comma (y :: rest) c h2 with h5 | ⟨g, hg, hcg⟩
      · exact Or.inl h5
      · exact Or.inr ⟨g, List.mem_cons_of_mem x hg, hcg⟩

theorem joinSep_head_digit :
    ∀ gs : List (List Char), gs ≠ [] →
      (∀ g ∈ gs, g ≠ [] ∧ ∀ c ∈ g, c.isDigit = true) →
      ∃ d w, joinSep [','] gs = d :: w ∧ d.isDigit = true
  | [], h, _ => absurd rfl h
  | [x], _, hall => by
    obtain ⟨hx, hdig⟩ := hall x (by simp)
    match x, hx with
    | d :: w, _ =>
      exact ⟨d, w, by simp [joinSep], hdig d (by simp)⟩
  | x :: y :: rest, _, hall => by
    obtain ⟨hx, hdig⟩ := hall x (by simp)
    match x, hx with
    | d :: w, _ =>
      refine ⟨d, w ++ [','] ++ joinSep [','] (y :: rest), ?_, hdig d (by simp)⟩
      rw [joinSep]; simp

theorem joinSep_last_digit :
    ∀ gs : List (List Char), gs ≠ [] →
      (∀ g ∈ gs, g ≠ [] ∧ ∀ c ∈ g, c.isDigit = true) →
      ∃ w d, joinSep [','] gs = w ++ [d] ∧ d.isDigit = true
  | [], h, _ => absurd rfl h
  | [x], _, hall => by
    obtain ⟨hx, hdig⟩ := hall x (by simp)
    rcases List.eq_nil_or_concat x with h1 | ⟨w, d, h2⟩
    · exact absurd h1 hx
    · exact ⟨w, d, by simp [joinSep, h2], hdig d (by simp [h2])⟩
  | x :: y :: rest, _, hall => by
    obtain ⟨w, d, hjoin, hdig⟩ :=
      joinSep_last_digit (y :: rest) (by simp)
        (fun g hg => hall g (List.mem_cons_of_mem x hg))
    refine ⟨x ++ [','] ++ w, d, ?_, hdig⟩
    rw [joinSep, hjoin]; simp

theorem mem_commaGroupNat {n : Nat} {c : Char} (hc : c ∈ commaGroupNat n) :
    c.isDigit = true ∨ c = ',' := by
  rcases mem_joinSep_comma _ c hc with h1 | ⟨g, hg, hcg⟩
  · exact Or.inr h1
  · left
    simp only [List.mem_map] at hg
    obtain ⟨g0, hg0, rfl⟩ := hg
    simp only [List.mem_map] at hcg
    obtain ⟨d, hd, rfl⟩ := hcg
    have : d ∈ natDigitsRev n :=
      mem_of_mem_groupThrees (by simpa using hg0) (List.mem_reverse.mp hd)
    exact digitChar_isDigit (natDigitsRev_lt n d this)

theorem groupThrees_ne_nil : ∀ l : List Nat, groupThrees l ≠ []
  | [] => by simp [groupThrees]
  | [a] => by simp [groupThrees]
  | [a, b] => by simp [groupThrees]
  | [a, b, c] => by simp [groupThrees]
  | a :: b :: c :: d :: rest => by rw [groupThrees]; simp

theorem commaGroupNat_groups_good (n : Nat) :
    ∀ g ∈ ((groupThrees (natDigitsRev n)).reverse).map
        (fun g => g.reverse.map digitChar),
      g ≠ [] ∧ ∀ c ∈ g, c.isDigit = true := by
  intro g hg
  simp only [List.mem_map] at hg
  obtain ⟨g0, hg0, rfl⟩ := hg
  have hg0m : g0 ∈ groupThrees (natDigitsRev n) := by simpa using hg0
  constructor
  · have := groupThrees_mem_ne_nil (natDigitsRev n) (natDigitsRev_ne_nil n) g0 hg0m
    simp [this]
  · intro c hc
    simp only [List.mem_map] at hc
    obtain ⟨d, hd, rfl⟩ := hc
    have : d ∈ natDigitsRev n :=
      mem_of_mem_groupThrees hg0m (List.mem_reverse.mp hd)
    exact digitChar_isDigit (natDigitsRev_lt n d this)

theorem commaGroupNat_head_digit (n : Nat) :
    ∃ d w, commaGroupNat n = d :: w ∧ d.isDigit = true := by
  apply joinSep_head_digit
  · simp [List.map_eq_nil_iff, List.reverse_eq_nil_iff, groupThrees_ne_nil]
  · exact commaGroupNat_groups_good n

theorem commaGroupNat_last_digit (n : Nat) :
    ∃ w d, commaGroupNat n = w ++ [d] ∧ d.isDigit = true := by
  apply joinSep_last_digit
  · simp [List.map_eq_nil_iff, List.reverse_eq_nil_iff, groupThrees_ne_nil]
  · exact commaGroupNat_groups_good n

theorem flatten_rev_map_digitChar :
    ∀ gs : List (List Nat),
      ((gs.reverse).map (fun g => g.reverse.map digitChar)).flatten =
        (gs.flatten).reverse.map digitChar
  | [] => by simp
  | g :: gs => by
    rw [List.reverse_cons, List.map_append, List.flatten_append,
      flatten_rev_map_digitChar gs]
    simp [List.reverse_append]

theorem filter_commaGroupNat (n : Nat) :
    (commaGroupNat n).filter (fun c => c ≠ ',') = natChars n := by
  rw [commaGroupNat, filter_joinSep_comma _ (by decide)]
  have hall : ∀ g ∈ ((groupThrees (natDigitsRev n)).reverse).map
      (fun g => g.reverse.map digitChar),
      List.filter (fun c => c ≠ ',') g = id g := by
    intro g hg
    apply List.filter_eq_self.mpr
    intro c hc
    have := (commaGroupNat_groups_good n g hg).2 c hc
    simp [isDigit_ne_comma this]
  rw [List.map_congr_left hall, List.map_id]
  rw [flatten_rev_map_digitChar, flatten_groupThrees]
  rfl

theorem valMSB_rev_digits :
    ∀ ds : List Nat, (∀ d ∈ ds, d < 10) →
      valMSB (ds.reverse.map digitChar) = digitsVal ds
  | [], _ => by simp [valMSB, digitsVal]
  | d :: ds, hall => by
    have ih := valMSB_rev_digits ds (fun x hx => hall x (List.mem_cons_of_mem d hx))
    simp only [List.reverse_cons, List.map_append]
    rw [valMSB, List.foldl_append]
    rw [valMSB] at ih
    simp only [List.map_cons, List.map_nil, List.foldl_cons, List.foldl_nil]
    rw [ih, digitsVal, charVal_digitChar (hall d (by simp))]
    ring

theorem valMSB_natChars (n : Nat) : valMSB (natChars n) = n := by
  rw [natChars, valMSB_rev_digits _ (natDigitsRev_lt n), digitsVal_natDigitsRev]

theorem natChars_ne_nil (n : Nat) : natChars n ≠ [] := by
  simp [natChars, natDigitsRev_ne_nil]

theorem natChars_all_digit (n : Nat) : ∀ c ∈ natChars n, c.isDigit = true := by
  intro c hc
  simp only [natChars, List.mem_map] at hc
  obtain ⟨d, hd, rfl⟩ := hc
  exact digitChar_isDigit (natDigitsRev_lt n d (List.mem_reverse.mp hd))

theorem parseNatComma_commaGroupNat (n : Nat) :
    parseNatComma (commaGroupNat n) = some n := by
  simp only [parseNatComma, filter_commaGroupNat]
  rw [if_neg (by simp [List.isEmpty_iff, natChars_ne_nil]),
    if_pos (by rw [List.all_eq_true]; exact fun c hc => natChars_all_digit n c hc)]
  rw [valMSB_natChars]

theorem parseIntComma_formatIntComma (v : Int) :
    parseIntComma (formatIntComma v) = some v := by
  obtain ⟨d, w, hdw, hdig⟩ := commaGroupNat_head_digit v.natAbs
  by_cases hv : v < 0
  · simp only [formatIntComma, if_pos hv, parseIntComma, List.cons_append,
      List.nil_append, List.head?_cons, List.tail_cons, if_pos rfl,
      parseNatComma_commaGroupNat, Option.map_some']
    simp only [if_true, Option.bind_eq_bind, Option.some_bind, Option.pure_def,
      Option.map_some', Option.some.injEq]
    omega
  · simp only [formatIntComma, if_neg hv, List.nil_append, parseIntComma, hdw,
      List.head?_cons]
    rw [if_neg (by simp [isDigit_ne_minus hdig]), ← hdw, parseNatComma_commaGroupNat]
    simp only [Option.bind_eq_bind, Option.some_bind, Option.pure_def,
      Option.map_some', Option.some.injEq]
    omega

/-! ## Helper lemmas: splitting and fixed-point price round-trip -/

theorem splitOnChar_ne_nil (c : Char) : ∀ l : List Char, splitOnChar c l ≠ []
  | [] => by simp [splitOnChar]
  | x :: xs => by
    rw [splitOnChar]
    rcases hs : splitOnChar c xs with _ | ⟨r, rs⟩
    · by_cases hxc : x = c <;> simp [hxc]
    · by_cases hxc : x = c <;> simp [hxc]

theorem splitOnChar_no_sep (c : Char) :
    ∀ l : List Char, c ∉ l → splitOnChar c l = [l]
  | [], _ => rfl
  | x :: xs, h => by
    have hx : x ≠ c := fun e => h (by simp [e])
    have hxs : c ∉ xs := fun e => h (List.mem_cons_of_mem x e)
    rw [splitOnChar, splitOnChar_no_sep c xs hxs]
    simp [hx]

theorem splitOnChar_append (c : Char) (rest : List Char) :
    ∀ a : List Char, c ∉ a →
      splitOnChar c (a ++ c :: rest) = a :: splitOnChar c rest
  | [], _ => by
    rw [List.nil_append, splitOnChar]
    rcases h : splitOnChar c rest with _ | ⟨r, rs⟩
    · exact absurd h (splitOnChar_ne_nil c rest)
    · simp
  | x :: xs, h => by
    have hx : x ≠ c := fun e => h (by simp [e])
    have hxs : c ∉ xs := fun e => h (List.mem_cons_of_mem x e)
    rw [List.cons_append, splitOnChar, splitOnChar_append c rest xs hxs]
    simp [hx]

theorem valMSB_twoDigitChars {m : Nat} (h : m < 100) :
    valMSB (twoDigitChars m) = m := by
  have h1 : m / 10 < 10 := by omega
  have h2 : m % 10 < 10 := by omega
  rw [twoDigitChars, valMSB]
  simp only [List.foldl_cons, List.foldl_nil]
  rw [charVal_digitChar h1, charVal_digitChar h2]
  omega

theorem twoDigitChars_all_digit {m : Nat} (h : m < 100) :
    ∀ c ∈ twoDigitChars m, c.isDigit = true := by
  intro c hc
  rw [twoDigitChars] at hc
  rcases List.mem_cons.mp hc with h1 | h2
  · subst h1; exact digitChar_isDigit (by omega)
  · simp at h2; subst h2; exact digitChar_isDigit (by omega)

theorem parseNonnegPrice_format (nn : Nat) :
    parseNonnegPrice (natChars (nn / 100) ++ '.' :: twoDigitChars (nn % 100)) =
      some ((nn : ℚ) / 100) := by
  have hdot1 : '.' ∉ natChars (nn / 100) := fun hm =>
    isDigit_ne_dot (natChars_all_digit _ _ hm) rfl
  have hdot2 : '.' ∉ twoDigitChars (nn % 100) := fun hm =>
    isDigit_ne_dot (twoDigitChars_all_digit (by omega) _ hm) rfl
  have hsplit : splitOnChar '.' (natChars (nn / 100) ++ '.' :: twoDigitChars (nn % 100)) =
      [natChars (nn / 100), twoDigitChars (nn % 100)] := by
    rw [splitOnChar_append _ _ _ hdot1, splitOnChar_no_sep _ _ hdot2]
  rw [parseNonnegPrice.eq_def, hsplit]
  simp only [twoDigitChars]
  rw [if_neg (by simp [List.isEmpty_iff, natChars_ne_nil]),
    if_pos (by rw [List.all_eq_true]; exact fun c hc => natChars_all_digit _ c hc)]
  rw [if_pos (by
    rw [Bool.and_eq_true]
    exact ⟨digitChar_isDigit (by omega), digitChar_isDigit (by omega)⟩)]
  rw [valMSB_natChars, ← twoDigitChars, valMSB_twoDigitChars (by omega)]
  congr 1
  have hmod : (100 : ℚ) * ((nn / 100 : Nat) : ℚ) + ((nn % 100 : Nat) : ℚ) = (nn : ℚ) := by
    exact_mod_cast Nat.div_add_mod nn 100
  field_simp
  linarith

theorem round_of_den_one {q : ℚ} (h : (q * 100).den = 1) :
    round (q * 100) = (q * 100).num := by
  have h1 : ((q * 100).num : ℚ) = q * 100 := (Rat.den_eq_one_iff _).mp h
  conv_lhs => rw [← h1]
  rw [round_intCast]

theorem num_cast_of_den_one {q : ℚ} (h : (q * 100).den = 1) :
    ((q * 100).num : ℚ) = q * 100 := (Rat.den_eq_one_iff _).mp h

theorem format2fChars_den_one {q : ℚ} (h : (q * 100).den = 1) :
    format2fChars q =
      (if (q * 100).num < 0 then ['-'] else []) ++
        natChars ((q * 100).num.natAbs / 100) ++
        '.' :: twoDigitChars ((q * 100).num.natAbs % 100) := by
  rw [format2fChars]
  rw [round_of_den_one h]
  simp

theorem parsePrice_format2f {q : ℚ} (h : (q * 100).den = 1) :
    parsePrice (format2fChars q) = some q := by
  have hq : (((q * 100).num : Int) : ℚ) = q * 100 := num_cast_of_den_one h
  by_cases hneg : (q * 100).num < 0
  · rw [format2fChars_den_one h, if_pos hneg, parsePrice]
    simp only [List.cons_append, List.head?_cons, List.tail_cons, List.nil_append,
      if_true]
    rw [parseNonnegPrice_format]
    simp only [Option.map_some', Option.some.injEq]
    have habs : (((q * 100).num.natAbs : ℚ)) = -(((q * 100).num : Int) : ℚ) := by
      rw [Int.cast_natAbs, abs_of_neg hneg]
      push_cast
      ring
    rw [habs, hq]
    ring
  · rw [format2fChars_den_one h, if_neg hneg, parsePrice, List.nil_append]
    obtain ⟨c0, cs0, hnc⟩ :=
      List.exists_cons_of_ne_nil (natChars_ne_nil ((q * 100).num.natAbs / 100))
    have hc0 : c0.isDigit = true := natChars_all_digit _ c0 (by rw [hnc]; simp)
    rw [if_neg (by
      rw [hnc]
      simp only [List.cons_append, List.head?_cons, Option.some.injEq]
      exact isDigit_ne_minus hc0)]
    rw [parseNonnegPrice_format]
    congr 1
    have habs : (((q * 100).num.natAbs : ℚ)) = (((q * 100).num : Int) : ℚ) := by
      rw [Int.cast_natAbs, abs_of_nonneg (not_lt.mp hneg)]
    rw [habs, hq]
    ring

/-! ## Helper lemmas: trimming and the table-row round-trip -/

theorem trimRightBy_concat_sat {p : Char → Bool} {x : Char} (hx : p x = true)
    (l : List Char) : trimRightBy p (l ++ [x]) = trimRightBy p l := by
  rw [trimRightBy, trimRightBy, List.reverse_append]
  simp [List.dropWhile_cons, hx]

theorem trimRightBy_concat_stop {p : Char → Bool} {x : Char} (hx : p x = false)
    (l : List Char) : trimRightBy p (l ++ [x]) = l ++ [x] := by
  rw [trimRightBy, List.reverse_append]
  simp [List.dropWhile_cons, hx]

theorem trimChars_concat_space {d : List Char} (h : trimChars d = d) :
    trimChars (d ++ [' ']) = d := by
  rw [trimChars, trimBy, trimRightBy_concat_sat (by decide)]
  exact h

theorem format2fChars_concat (q : ℚ) :
    ∃ w d, format2fChars q = w ++ [d] ∧ d.isDigit = true := by
  refine ⟨(if round (q * 100) < 0 then ['-'] else []) ++
      natChars ((round (q * 100)).natAbs / 100) ++
      ['.', digitChar (((round (q * 100)).natAbs % 100) / 10)],
    digitChar (((round (q * 100)).natAbs % 100) % 10), ?_,
    digitChar_isDigit (by omega)⟩
  rw [format2fChars, twoDigitChars]
  simp

theorem format2fChars_no_pipe (q : ℚ) : '|' ∉ format2fChars q := by
  intro hmem
  rw [format2fChars] at hmem
  rcases List.mem_append.mp hmem with h1 | h2
  · rcases List.mem_append.mp h1 with h3 | h4
    · rcases List.mem_append.mp h3 with h5 | h6
      · split at h5 <;> simp at h5
      · exact isDigit_ne_pipe (natChars_all_digit _ _ h6) rfl
    · simp at h4
  · exact isDigit_ne_pipe (twoDigitChars_all_digit (by omega) _ h2) rfl

theorem formatIntComma_no_pipe (v : Int) : '|' ∉ formatIntComma v := by
  intro hmem
  rw [formatIntComma] at hmem
  rcases List.mem_append.mp hmem with h1 | h2
  · split at h1 <;> simp at h1
  · rcases mem_commaGroupNat h2 with h3 | h4
    · exact isDigit_ne_pipe h3 rfl
    · simp at h4

theorem formatIntComma_concat (v : Int) :
    ∃ w d, formatIntComma v = w ++ [d] ∧ d.isDigit = true := by
  obtain ⟨w, d, hwd, hdig⟩ := commaGroupNat_last_digit v.natAbs
  exact ⟨(if v < 0 then ['-'] else []) ++ w, d, by rw [formatIntComma, hwd]; simp, hdig⟩

theorem formatIntComma_head (v : Int) :
    ∃ h0 t, formatIntComma v = h0 :: t ∧ h0 ≠ ' ' := by
  obtain ⟨d, w, hdw, hdig⟩ := commaGroupNat_head_digit v.natAbs
  by_cases hv : v < 0
  · exact ⟨'-', commaGroupNat v.natAbs, by rw [formatIntComma, if_pos hv]; simp, by decide⟩
  · exact ⟨d, w, by rw [formatIntComma, if_neg hv, hdw]; simp, isDigit_ne_space hdig⟩

theorem trim_price_part (q : ℚ) :
    trimChars (' ' :: '$' :: (format2fChars q ++ [' '])) = '$' :: format2fChars q := by
  obtain ⟨w, d, hwd, hdig⟩ := format2fChars_concat q
  rw [trimChars, trimBy]
  have h1 : (' ' :: '$' :: (format2fChars q ++ [' '])) =
      (' ' :: '$' :: format2fChars q) ++ [' '] := by simp
  rw [h1, trimRightBy_concat_sat (by decide)]
  have h2 : (' ' :: '$' :: format2fChars q) = (' ' :: '$' :: w) ++ [d] := by
    rw [hwd]; simp
  rw [h2, trimRightBy_concat_stop (by simp [isDigit_ne_space hdig])]
  rw [trimLeftBy]
  simp [List.dropWhile_cons, hwd]

theorem trim_volume_part (v : Int) :
    trimChars (' ' :: formatIntComma v) = formatIntComma v := by
  obtain ⟨w, d, hwd, hdig⟩ := formatIntComma_concat v
  obtain ⟨h0, t, hht, hh0⟩ := formatIntComma_head v
  rw [trimChars, trimBy]
  have h2 : (' ' :: formatIntComma v) = (' ' :: w) ++ [d] := by rw [hwd]; simp
  rw [h2, trimRightBy_concat_stop (by simp [isDigit_ne_space hdig]), ← h2]
  rw [trimLeftBy, hht]
  simp [List.dropWhile_cons, hh0]

theorem splitRow (p : HistPoint) (hd : '|' ∉ p.date.toList) :
    splitOnChar '|' (formatRowChars p) =
      [p.date.toList ++ [' '],
       ' ' :: '$' :: (format2fChars p.close ++ [' ']),
       ' ' :: formatIntComma p.volume] := by
  have hshape : formatRowChars p =
      (p.date.toList ++ [' ']) ++ '|' ::
        ((' ' :: '$' :: (format2fChars p.close ++ [' '])) ++ '|' ::
          (' ' :: formatIntComma p.volume)) := by
    rw [formatRowChars]
    simp
  have hnp1 : '|' ∉ p.date.toList ++ [' '] := by
    intro hmem
    rcases List.mem_append.mp hmem with h1 | h2
    · exact hd h1
    · simp at h2
  have hnp2 : '|' ∉ ' ' :: '$' :: (format2fChars p.close ++ [' ']) := by
    intro hmem
    rcases List.mem_cons.mp hmem with h1 | h2
    · simp at h1
    · rcases List.mem_cons.mp h2 with h3 | h4
      · simp at h3
      · rcases List.mem_append.mp h4 with h5 | h6
        · exact format2fChars_no_pipe p.close h5
        · simp at h6
  have hnp3 : '|' ∉ ' ' :: formatIntComma p.volume := by
    intro hmem
    rcases List.mem_cons.mp hmem with h1 | h2
    · simp at h1
    · exact formatIntComma_no_pipe p.volume h2
  rw [hshape, splitOnChar_append _ _ _ hnp1, splitOnChar_append _ _ _ hnp2,
    splitOnChar_no_sep _ _ hnp3]

theorem mk_toList (s : String) : String.mk s.toList = s := by
  cases s
  rfl

theorem parseRow_formatRow (p : HistPoint)
    (h1 : trimChars p.date.toList = p.date.toList)
    (h2 : '|' ∉ p.date.toList)
    (h3 : (p.close * 100).den = 1) :
    parseRowChars (formatRowChars p) = some p := by
  rw [parseRowChars.eq_def, splitRow p h2]
  simp only [trim_price_part, trim_volume_part, trimChars_concat_space h1,
    parsePrice_format2f h3, parseIntComma_formatIntComma, mk_toList]

/-! ## Helper lemmas: the descending date sort -/

theorem mem_insertDesc {x a : HistPoint} :
    ∀ l : List HistPoint, a ∈ insertDesc x l ↔ a = x ∨ a ∈ l
  | [] => by simp [insertDesc]
  | y :: ys => by
    rw [insertDesc]
    split
    · rw [List.mem_cons, mem_insertDesc ys]
      simp [List.mem_cons]
      tauto
    · simp [List.mem_cons]

theorem insertDesc_perm (x : HistPoint) :
    ∀ l : List HistPoint, (insertDesc x l).Perm (x :: l)
  | [] => by simp [insertDesc]
  | y :: ys => by
    rw [insertDesc]
    split
    · exact ((insertDesc_perm x ys).cons y).trans (List.Perm.swap x y ys)
    · exact List.Perm.refl _

theorem sortByDateDesc_perm : ∀ l : List HistPoint, (sortByDateDesc l).Perm l
  | [] => List.Perm.refl _
  | x :: xs => by
    rw [sortByDateDesc, List.foldr_cons]
    exact (insertDesc_perm x _).trans ((sortByDateDesc_perm xs).cons x)

theorem pairwise_insertDesc {x : HistPoint} :
    ∀ l : List HistPoint,
      l.Pairwise (fun a b => b.date ≤ a.date) →
      (insertDesc x l).Pairwise (fun a b => b.date ≤ a.date)
  | [], _ => by simp [insertDesc]
  | y :: ys, h => by
    rw [insertDesc]
    rw [List.pairwise_cons] at h
    split
    · rename_i hlt
      rw [List.pairwise_cons]
      constructor
      · intro z hz
        rcases (mem_insertDesc ys).mp hz with h1 | h2
        · subst h1; exact le_of_lt hlt
        · exact h.1 z h2
      · exact pairwise_insertDesc ys h.2
    · rename_i hnlt
      rw [List.pairwise_cons]
      constructor
      · intro z hz
        rcases List.mem_cons.mp hz with h1 | h2
        · subst h1; exact not_lt.mp hnlt
        · exact le_trans (h.1 z h2) (not_lt.mp hnlt)
      · rw [List.pairwise_cons]
        exact h

theorem sortByDateDesc_pairwise :
    ∀ l : List HistPoint,
      (sortByDateDesc l).Pairwise (fun a b => b.date ≤ a.date)
  | [] => by simp [sortByDateDesc]
  | x :: xs => by
    rw [sortByDateDesc, List.foldr_cons]
    exact pairwise_insertDesc _ (sortByDateDesc_pairwise xs)

theorem sortByDateDesc_strict {l : List HistPoint}
    (hnd : (l.map (fun p => p.date)).Nodup) :
    (sortByDateDesc l).Pairwise (fun a b => b.date < a.date) := by
  have hne : l.Pairwise (fun a b : HistPoint => a.date ≠ b.date) :=
    List.pairwise_map.mp hnd
  have hne2 : (sortByDateDesc l).Pairwise (fun a b : HistPoint => a.date ≠ b.date) :=
    ((sortByDateDesc_perm l).pairwise_iff (fun h => Ne.symm h)).mpr hne
  exact ((sortByDateDesc_pairwise l).and hne2).imp
    (fun h => lt_of_le_of_ne h.1 (Ne.symm h.2))

theorem sortByDateDesc_eq_of_perm {l l' : List HistPoint}
    (hp : l'.Perm l) (hnd : (l.map (fun p => p.date)).Nodup) :
    sortByDateDesc l' = sortByDateDesc l := by
  have hnd' : (l'.map (fun p => p.date)).Nodup := by
    have : (l'.map (fun p => p.date)).Perm (l.map (fun p => p.date)) := hp.map _
    exact this.nodup_iff.mpr hnd
  have hperm : (sortByDateDesc l').Perm (sortByDateDesc l) :=
    ((sortByDateDesc_perm l').trans hp).trans (sortByDateDesc_perm l).symm
  exact @List.eq_of_perm_of_sorted HistPoint (fun a b => b.date < a.date)
    ⟨fun a b h1 h2 => absurd h2 (lt_asymm h1)⟩ _ _
    hperm (sortByDateDesc_strict hnd') (sortByDateDesc_strict hnd)

/-! ## Claim theorems -/

/-- Claim C1: for every input text, empty or placeholder text classifies
    as neutral regardless of score; otherwise a compound score of at
    least 0.05 classifies positive, at most -0.05 negative, and strictly
    between them neutral, with both boundary values included on the
    positive and negative sides. -/
theorem C1_sentiment_thresholds (score : String → ℚ) (text : String) :
    ((text = "" ∨ text = "No summary available") →
      classify_sentiment score text = "neutral") ∧
    (text ≠ "" → text ≠ "No summary available" →
      ((5 / 100 ≤ score text → classify_sentiment score text = "positive") ∧
       (score text ≤ -(5 / 100) → classify_sentiment score text = "negative") ∧
       (-(5 / 100) < score text → score text < 5 / 100 →
         classify_sentiment score text = "neutral"))) := by
  constructor
  · intro h
    rw [classify_sentiment, if_pos h]
  · intro h1 h2
    refine ⟨?_, ?_, ?_⟩
    · intro hge
      rw [classify_sentiment, if_neg (by tauto), if_pos hge]
    · intro hle
      rw [classify_sentiment, if_neg (by tauto),
        if_neg (not_le.mpr (by linarith)), if_pos hle]
    · intro hgt hlt
      rw [classify_sentiment, if_neg (by tauto),
        if_neg (not_le.mpr hlt), if_neg (not_le.mpr hgt)]

/-- Witness for C1 at the boundary scores 0.05 and -0.05, at an interior
    score, and at empty text. -/
theorem C1_sentiment_thresholds_witness :
    classify_sentiment (fun _ => 5 / 100) "up" = "positive" ∧
    classify_sentiment (fun _ => -(5 / 100)) "down" = "negative" ∧
    classify_sentiment (fun _ => 0) "flat" = "neutral" ∧
    classify_sentiment (fun _ => 1) "" = "neutral" :=
  ⟨((C1_sentiment_thresholds (fun _ => 5 / 100) "up").2 (by decide) (by decide)).1
      (by norm_num),
   ((C1_sentiment_thresholds (fun _ => -(5 / 100)) "down").2 (by decide) (by decide)).2.1
      (by norm_num),
   ((C1_sentiment_thresholds (fun _ => 0) "flat").2 (by decide) (by decide)).2.2
      (by norm_num) (by norm_num),
   (C1_sentiment_thresholds (fun _ => 1) "").1 (Or.inl rfl)⟩

/-- Claim C5: for a non-empty historical series whose oldest close (after
    sorting descending by date) is zero, the price-change percentage is
    0 and is rendered as 0.00, with no division by zero. -/
theorem C5_zero_oldest_close (data : List HistPoint) (h1 : data ≠ [])
    (h2 : ((sortByDateDesc data).getLastD default).close = 0) :
    price_change_pct (sortByDateDesc data) = 0 ∧
    format2f (price_change_pct (sortByDateDesc data)) = "0.00" := by
  have hpct : price_change_pct (sortByDateDesc data) = 0 := by
    rw [price_change_pct]
    simp only [h2]
    simp
  refine ⟨hpct, ?_⟩
  rw [hpct]
  with_unfolding_all decide

/-- Witness for C5 on a two-point series whose oldest close is zero. -/
theorem C5_zero_oldest_close_witness :
    price_change_pct (sortByDateDesc
      [⟨"2024-01-02", 5, 10⟩, ⟨"2024-01-01", 0, 3⟩]) = 0 ∧
    format2f (price_change_pct (sortByDateDesc
      [⟨"2024-01-02", 5, 10⟩, ⟨"2024-01-01", 0, 3⟩])) = "0.00" :=
  C5_zero_oldest_close [⟨"2024-01-02", 5, 10⟩, ⟨"2024-01-01", 0, 3⟩]
    (by decide) (by with_unfolding_all decide)

/-- Claim C10: an inbound message whose text field is absent or empty
    produces exactly one outbound message asking for a valid stock
    symbol, and no pipeline stage is invoked. -/
theorem C10_empty_text (score : String → ℚ) (env : Env) (text : Option String)
    (h : text = none ∨ text = some "") :
    handle_message score env text = [Ev.sendText "Please send a valid stock symbol."] := by
  rcases h with h | h <;> subst h <;> rfl

/-- Witness for C10 at an absent and at an empty text field. -/
theorem C10_empty_text_witness :
    handle_message (fun _ => 0) ⟨Except.ok none, "", AnalysisOutcome.timeout, Except.ok []⟩
      none = [Ev.sendText "Please send a valid stock symbol."] ∧
    handle_message (fun _ => 0) ⟨Except.ok none, "", AnalysisOutcome.timeout, Except.ok []⟩
      (some "") = [Ev.sendText "Please send a valid stock symbol."] :=
  ⟨C10_empty_text (fun _ => 0) _ none (Or.inl rfl),
   C10_empty_text (fun _ => 0) _ (some "") (Or.inr rfl)⟩

/-- Counterexample to C3 as stated: on a chart failure the request emits
    two outbound messages (the acknowledgment and the apology), not
    exactly one. -/
theorem C3_counterexample :
    (outboundOf (handle_message (fun _ => 0)
      ⟨Except.ok none, "", AnalysisOutcome.timeout, Except.ok []⟩
      (some "aapl"))).length ≠ 1 := by
  decide

/-- Claim C3 as amended: on a chart failure the trace is exactly the
    acknowledgment, the chart call, and the apology; no OCR, analysis
    or news stage is invoked and no further message is sent. -/
theorem C3_chart_failure_trace (score : String → ℚ) (env : Env) (t : String)
    (h1 : t ≠ "") (h2 : env.chart = Except.ok none) :
    handle_message score env (some t) =
      [Ev.sendText ("Fetching chart for " ++ symOf t ++ "..."),
       Ev.callChart,
       Ev.sendText ("Failed to fetch the chart for " ++ symOf t ++
         ". Please verify the symbol and try again.")] := by
  simp [handle_message, h1, h2]

/-- Witness for C3 as amended at a concrete request. -/
theorem C3_chart_failure_trace_witness :
    handle_message (fun _ => 0)
      ⟨Except.ok none, "", AnalysisOutcome.timeout, Except.ok []⟩ (some "aapl") =
      [Ev.sendText ("Fetching chart for " ++ symOf "aapl" ++ "..."),
       Ev.callChart,
       Ev.sendText ("Failed to fetch the chart for " ++ symOf "aapl" ++
         ". Please verify the symbol and try again.")] :=
  C3_chart_failure_trace (fun _ => 0) _ "aapl" (by decide) rfl

/-- Counterexample to C2 as stated: with chart success and an analysis
    timeout, the first three outbound messages are not acknowledgment,
    chart image, timeout notice; the code sends the timeout notice
    before the chart image. -/
theorem C2_counterexample :
    (outboundOf (handle_message (fun _ => 0)
      ⟨Except.ok (some "http://chart"), "", AnalysisOutcome.timeout, Except.ok []⟩
      (some "aapl"))).take 3 ≠
      [Ev.sendText "Fetching chart for AAPL...",
       Ev.sendPhoto "http://chart",
       Ev.sendText ("Analysis for AAPL is taking too long. Here" ++ apos ++
         "s the chart:")] := by
  decide

/-- Claim C2 as amended: with chart success and an analysis timeout the
    trace is acknowledgment, chart call, OCR call, analysis call,
    timeout notice, then the chart image, with no analysis text, and
    the news stage still executes afterwards. -/
theorem C2_timeout_trace (score : String → ℚ) (env : Env) (t url : String)
    (h1 : t ≠ "") (h2 : env.chart = Except.ok (some url))
    (h3 : env.analysis = AnalysisOutcome.timeout) :
    handle_message score env (some t) =
      Ev.sendText ("Fetching chart for " ++ symOf t ++ "...") ::
      Ev.callChart :: Ev.callOCR :: Ev.callAnalysis ::
      Ev.sendText ("Analysis for " ++ symOf t ++ " is taking too long. Here" ++
        apos ++ "s the chart:") ::
      Ev.sendPhoto url ::
      newsEvents score (symOf t) env.news := by
  simp [handle_message, chartReadyEvents, h1, h2, h3]

/-- Witness for C2 as amended at a concrete request. -/
theorem C2_timeout_trace_witness :
    handle_message (fun _ => 0)
      ⟨Except.ok (some "http://chart"), "", AnalysisOutcome.timeout, Except.ok []⟩
      (some "aapl") =
      Ev.sendText ("Fetching chart for " ++ symOf "aapl" ++ "...") ::
      Ev.callChart :: Ev.callOCR :: Ev.callAnalysis ::
      Ev.sendText ("Analysis for " ++ symOf "aapl" ++ " is taking too long. Here" ++
        apos ++ "s the chart:") ::
      Ev.sendPhoto "http://chart" ::
      newsEvents (fun _ => 0) (symOf "aapl") (Except.ok []) :=
  C2_timeout_trace (fun _ => 0) _ "aapl" "http://chart" (by decide) rfl rfl

/-- Counterexample to C4 as stated: with two points sharing one date,
    the stable sort keeps the input order among equal dates, so digesting
    a transposition of the series differs from digesting the pre-sorted
    series (the rows and the newest close swap). -/
theorem C4_counterexample :
    (([⟨"2024-01-01", 2, 20⟩, ⟨"2024-01-01", 1, 10⟩] : List HistPoint).Perm
      [⟨"2024-01-01", 1, 10⟩, ⟨"2024-01-01", 2, 20⟩]) ∧
    format_historical_data
        ([⟨"2024-01-01", 2, 20⟩, ⟨"2024-01-01", 1, 10⟩] : List HistPoint) ≠
      format_historical_data (sortByDateDesc
        ([⟨"2024-01-01", 1, 10⟩, ⟨"2024-01-01", 2, 20⟩] : List HistPoint)) := by
  constructor
  · with_unfolding_all decide
  · with_unfolding_all decide

/-- Claim C4 as amended: for a series whose dates are pairwise distinct,
    digesting any permutation of it equals digesting the series
    pre-sorted descending by date. -/
theorem C4_digest_perm_invariant (l l' : List HistPoint)
    (hp : l'.Perm l) (hnd : (l.map (fun p => p.date)).Nodup) :
    format_historical_data l' = format_historical_data (sortByDateDesc l) := by
  by_cases hl : l = []
  · subst hl
    rw [hp.eq_nil]
    rfl
  · have hl' : l' ≠ [] := fun e => hl (by rw [e] at hp; exact hp.symm.eq_nil)
    have hsl : sortByDateDesc l ≠ [] := fun e => by
      have hlen := (sortByDateDesc_perm l).length_eq
      rw [e] at hlen
      exact hl (List.length_eq_zero.mp hlen.symm)
    rw [format_historical_data, format_historical_data, if_neg hl', if_neg hsl]
    rw [sortByDateDesc_eq_of_perm hp hnd,
      sortByDateDesc_eq_of_perm (sortByDateDesc_perm l) hnd]

/-- Witness for C4 as amended on a two-point series with distinct dates. -/
theorem C4_digest_perm_invariant_witness :
    (([⟨"2024-01-02", 2, 20⟩, ⟨"2024-01-01", 1, 10⟩] : List HistPoint).Perm
      [⟨"2024-01-01", 1, 10⟩, ⟨"2024-01-02", 2, 20⟩]) ∧
    (([⟨"2024-01-01", 1, 10⟩, ⟨"2024-01-02", 2, 20⟩] : List HistPoint).map
      (fun p => p.date)).Nodup ∧
    format_historical_data
        ([⟨"2024-01-02", 2, 20⟩, ⟨"2024-01-01", 1, 10⟩] : List HistPoint) =
      format_historical_data (sortByDateDesc
        ([⟨"2024-01-01", 1, 10⟩, ⟨"2024-01-02", 2, 20⟩] : List HistPoint)) :=
  ⟨by with_unfolding_all decide, by decide,
   C4_digest_perm_invariant _ _ (by with_unfolding_all decide) (by decide)⟩

/-- Claim C9: for a series of well-formed rows (dates without pipes or
    surrounding spaces, prices exact at two decimals), formatting the
    printable table and re-parsing each row recovers exactly the top 30
    entries of the descending-sorted series. -/
theorem C9_table_roundtrip (data : List HistPoint)
    (h : ∀ p ∈ data, trimChars p.date.toList = p.date.toList ∧
      '|' ∉ p.date.toList ∧ (p.close * 100).den = 1) :
    ((sortByDateDesc data).take 30).map (fun p => parseRowChars (formatRowChars p)) =
      ((sortByDateDesc data).take 30).map some := by
  apply List.map_congr_left
  intro p hp
  have hmem : p ∈ data := (sortByDateDesc_perm data).mem_iff.mp (List.take_subset _ _ hp)
  obtain ⟨h1, h2, h3⟩ := h p hmem
  exact parseRow_formatRow p h1 h2 h3

/-- Witness for C9 on a two-row series with a fractional and an integral
    price. -/
theorem C9_table_roundtrip_witness :
    (∀ p ∈ ([⟨"2024-01-02", 123.45, 1234567⟩, ⟨"2024-01-01", -3.25, 99⟩] :
        List HistPoint),
      trimChars p.date.toList = p.date.toList ∧
      '|' ∉ p.date.toList ∧ (p.close * 100).den = 1) ∧
    ((sortByDateDesc ([⟨"2024-01-02", 123.45, 1234567⟩, ⟨"2024-01-01", -3.25, 99⟩] :
        List HistPoint)).take 30).map (fun p => parseRowChars (formatRowChars p)) =
      ((sortByDateDesc ([⟨"2024-01-02", 123.45, 1234567⟩, ⟨"2024-01-01", -3.25, 99⟩] :
        List HistPoint)).take 30).map some :=
  ⟨by with_unfolding_all decide,
   C9_table_roundtrip _ (by with_unfolding_all decide)⟩

/-- Claim C6: when the caller supplies no historical data and the fetch
    returns an empty series, the chain returns the data-unavailable
    error for the symbol and performs no language-model call. -/
theorem C6_no_data_no_llm (fetchResult : List HistPoint) (llm : String → String)
    (inputs : ChainInputs)
    (h1 : inputs.stock_symbol.getD "" ≠ "")
    (h2 : inputs.historical_data.getD [] = [])
    (h3 : fetchResult = []) :
    async_chain_func fetchResult llm inputs =
      ("Error: Unable to fetch historical data for " ++ inputs.stock_symbol.getD "" ++
        ". Please check if the symbol is correct and try again.",
       [ChainEv.fetchHistorical]) ∧
    ChainEv.callLLM ∉ (async_chain_func fetchResult llm inputs).2 := by
  have heq : async_chain_func fetchResult llm inputs =
      ("Error: Unable to fetch historical data for " ++ inputs.stock_symbol.getD "" ++
        ". Please check if the symbol is correct and try again.",
       [ChainEv.fetchHistorical]) := by
    subst h3
    rw [async_chain_func]
    simp [h2, h1]
  exact ⟨heq, by rw [heq]; simp⟩

/-- Witness for C6 at a concrete request for the symbol AAPL. -/
theorem C6_no_data_no_llm_witness :
    async_chain_func [] (fun _ => "model output") ⟨some "AAPL", some "", none⟩ =
      ("Error: Unable to fetch historical data for " ++
        (some "AAPL" : Option String).getD "" ++
        ". Please check if the symbol is correct and try again.",
       [ChainEv.fetchHistorical]) ∧
    ChainEv.callLLM ∉
      (async_chain_func [] (fun _ => "model output") ⟨some "AAPL", some "", none⟩).2 :=
  C6_no_data_no_llm [] (fun _ => "model output") ⟨some "AAPL", some "", none⟩
    (by decide) rfl rfl

/-- Counterexample to C7 as stated: a 200 response whose body is not
    JSON makes the chart client raise the JSON decode error to its
    caller instead of returning a failure value. -/
theorem C7_counterexample :
    fetch_stock_chart ⟨200, none⟩ = Except.error PyErr.jsonDecode ∧
    ∀ v : Option String, fetch_stock_chart ⟨200, none⟩ ≠ Except.ok v := by
  refine ⟨rfl, ?_⟩
  intro v h
  simp [fetch_stock_chart] at h

/-- Claim C7 as amended: any non-200 status maps to the failure value
    without raising (None in the orchestrator client, the sentinel
    string in the unused service client), but a 200 response with a
    malformed body raises the JSON decode error to the caller. -/
theorem C7_chart_client_behavior (resp : HttpResponse) :
    (resp.status_code ≠ 200 → fetch_stock_chart resp = Except.ok none) ∧
    (resp.status_code = 200 → resp.body = none →
      fetch_stock_chart resp = Except.error PyErr.jsonDecode) ∧
    (resp.status_code ≠ 200 →
      fetch_stock_chart_service resp = Except.ok (some "Error fetching chart.")) := by
  refine ⟨?_, ?_, ?_⟩
  · intro h
    rw [fetch_stock_chart, if_neg h]
  · intro h hb
    rw [fetch_stock_chart, if_pos h, hb]
  · intro h
    rw [fetch_stock_chart_service, if_neg h]

/-- Witness for C7 as amended at a 404, a malformed 200, and a 500. -/
theorem C7_chart_client_behavior_witness :
    fetch_stock_chart ⟨404, some []⟩ = Except.ok none ∧
    fetch_stock_chart ⟨200, none⟩ = Except.error PyErr.jsonDecode ∧
    fetch_stock_chart_service ⟨500, none⟩ = Except.ok (some "Error fetching chart.") :=
  ⟨(C7_chart_client_behavior ⟨404, some []⟩).1 (by decide),
   (C7_chart_client_behavior ⟨200, none⟩).2.1 rfl rfl,
   (C7_chart_client_behavior ⟨500, none⟩).2.2 (by decide)⟩

set_option maxRecDepth 40000 in
/-- Counterexample to C8 as stated: a successful extraction with one
    blank page yields the bare report template with no bullets; the
    output contains no statement that no text was detected (neither
    "no text" nor "No text" occurs in it). -/
theorem C8_counterexample :
    analyze_stock_chart_with_ocr ⟨200, some (some 1, [""])⟩ =
      ocrTemplate (joinWithNl
        ["Stock Chart Analysis Results:", "\nText detected in chart:"]) ∧
    ¬ ("no text".toList <:+:
        (analyze_stock_chart_with_ocr ⟨200, some (some 1, [""])⟩).toList) ∧
    ¬ ("No text".toList <:+:
        (analyze_stock_chart_with_ocr ⟨200, some (some 1, [""])⟩).toList) := by
  refine ⟨rfl, by decide, by decide⟩

/-- Claim C8 as amended: on a successful extraction the client returns
    the fixed report template around the bullet list (a prompt, whose
    first character is a newline, not one of the Error strings); blank
    pages contribute no bullets, so an all-blank extraction yields the
    bare template with an empty bullet list and no explicit no-text
    statement; and every non-blank detected line appears as a bullet
    entry among the texts laid out under the template. -/
theorem C8_ocr_output (resp : OcrResponse) (exitc : Option Int) (pages : List String)
    (h1 : resp.status_code = 200) (h2 : resp.body = some (exitc, pages))
    (h3 : exitc = some 1) :
    analyze_stock_chart_with_ocr resp = ocrTemplate (joinWithNl (ocrTexts pages)) ∧
    ((∀ page ∈ pages, pyStrip page = "") → ocrBullets pages = []) ∧
    (∀ page ∈ pages, ∀ line ∈ (splitOnChar '\n' (pyStrip page).toList).map String.mk,
      pyStrip line ≠ "" → ("- " ++ pyStrip line) ∈ ocrTexts pages) ∧
    (ocrTemplate (joinWithNl (ocrTexts pages))).toList.head? = some '\n' := by
  subst h3
  refine ⟨?_, ?_, ?_, rfl⟩
  · rw [analyze_stock_chart_with_ocr, if_neg (by simp [h1]), h2]
    simp
  · intro hall
    rw [ocrBullets, List.flatten_eq_nil_iff]
    intro l hl
    simp only [List.mem_map] at hl
    obtain ⟨page, hpage, rfl⟩ := hl
    rw [hall page hpage]
    simp
  · intro page hpage line hline hne
    refine List.mem_cons_of_mem _ (List.mem_cons_of_mem _ ?_)
    rw [ocrBullets]
    apply List.mem_flatten.mpr
    by_cases hps : pyStrip page = ""
    · exfalso
      rw [hps] at hline
      have hl : line = "" := by
        simpa [splitOnChar] using hline
      exact hne (by rw [hl]; rfl)
    · refine ⟨_, List.mem_map_of_mem _ hpage, ?_⟩
      simp only [if_neg hps]
      exact List.mem_filterMap.mpr ⟨line, hline, by rw [if_neg hne]⟩

/-- Witness for C8 as amended on a response with one blank page and one
    page holding two lines, one of them blank. -/
theorem C8_ocr_output_witness :
    analyze_stock_chart_with_ocr ⟨200, some (some 1, ["", " AAPL 182 \n  "])⟩ =
      ocrTemplate (joinWithNl (ocrTexts ["", " AAPL 182 \n  "])) ∧
    ((∀ page ∈ ["", " AAPL 182 \n  "], pyStrip page = "") →
      ocrBullets ["", " AAPL 182 \n  "] = []) ∧
    (∀ page ∈ ["", " AAPL 182 \n  "],
      ∀ line ∈ (splitOnChar '\n' (pyStrip page).toList).map String.mk,
      pyStrip line ≠ "" →
        ("- " ++ pyStrip line) ∈ ocrTexts ["", " AAPL 182 \n  "]) ∧
    (ocrTemplate (joinWithNl (ocrTexts ["", " AAPL 182 \n  "]))).toList.head? =
      some '\n' :=
  C8_ocr_output ⟨200, some (some 1, ["", " AAPL 182 \n  "])⟩ (some 1)
    ["", " AAPL 182 \n  "] rfl rfl rfl

end StockAnalysis
